import Mathlib

/-!
Shallow embedding of the natural-language-to-action compiler found in the
`RealMCPExecutor` class (src/tests/logout-login.spec.ts, executor section).

Strings are modelled as `List Char` (`Str`).  JavaScript string methods used
by the source (`toLowerCase`, `includes`, `split`, `trim`, regex matching)
are modelled by explicit Lean functions below; each regex of the source is
embedded as a dedicated matching function whose doc comment quotes the regex
it models.  Regex models follow JavaScript leftmost-match / greedy semantics
on the character classes that actually occur (ASCII text, `\s` taken as
space, tab, CR, LF).

The file system and the application configuration are explicit parameters
(`FS`, `MCPContext`): the source reads CSV files with `fs.readFileSync` and
credentials/base URL from a config singleton.  Recursion in the step parser
(`intelligentStepParser`, which re-enters itself through
`generateWorkflowActions`) is modelled with an explicit fuel argument;
`none` marks exhaustion of the call-stack budget, which the source surfaces
as a thrown stack-overflow exception caught in `parseSimpleStep`.
-/

namespace MCP

/-- Strings of the embedded program. -/
abbrev Str := List Char

/-- Conversion from a Lean string literal. -/
def L (s : String) : Str := s.toList

/-- JavaScript whitespace class `\s` restricted to the characters that occur
in the modelled inputs: space, tab, line feed, carriage return. -/
def isWs (c : Char) : Bool := c = ' ' || c = '\t' || c = '\n' || c = '\r'

/-- Model of `String.prototype.toLowerCase` (ASCII range). -/
def toLower (s : Str) : Str := s.map Char.toLower

/-- Model of `String.prototype.includes`: substring containment. -/
def containsSub (hay needle : Str) : Bool :=
  (List.range (hay.length + 1)).any (fun i => needle.isPrefixOf (hay.drop i))

/-- Model of `String.prototype.trim`. -/
def trim (s : Str) : Str :=
  ((s.dropWhile isWs).reverse.dropWhile isWs).reverse

/-- Model of `String.prototype.split(c)` for a single-character separator. -/
def splitOnChar (c : Char) : Str → List Str
  | [] => [[]]
  | a :: rest =>
    let r := splitOnChar c rest
    if a = c then [] :: r
    else
      match r with
      | [] => [[a]]
      | h :: t => (a :: h) :: t

/-- Model of `content.split('\n')`. -/
def splitLines (s : Str) : List Str := splitOnChar '\n' s

/-- Model of `step.split(' ')`. -/
def splitSpaces (s : Str) : List Str := splitOnChar ' ' s

/-- Decimal digit test (`\d`). -/
def isDigit (c : Char) : Bool := '0' ≤ c && c ≤ '9'

/-- Word-character test (`\w`). -/
def isWordChar (c : Char) : Bool :=
  ('a' ≤ c && c ≤ 'z') || ('A' ≤ c && c ≤ 'Z') || isDigit c || c = '_'

/-- Model of `parseInt` on a list of decimal digits. -/
def parseNat (digits : Str) : Nat :=
  digits.foldl (fun acc c => acc * 10 + (c.toNat - 48)) 0

/-- Decimal rendering of a natural number (for `${stepNumber}` interpolation);
fuel-structured so that the kernel can evaluate it. -/
def natStrAux : Nat → Nat → Str
  | 0, _ => []
  | fuel+1, n =>
    if n < 10 then [Char.ofNat (48 + n)]
    else natStrAux fuel (n / 10) ++ [Char.ofNat (48 + n % 10)]

/-- Decimal rendering of a natural number. -/
def natStr (n : Nat) : Str := natStrAux (n + 1) n

/-! ## Data model (interfaces `MCPAction`, `MCPContext` of the source) -/

/-- The `type` field of `MCPAction`:
`'navigate' | 'fill' | 'click' | 'wait' | 'assert' | 'select' | 'hover' | 'snapshot'`. -/
inductive ActionType
  | navigate | fill | click | wait | assert | sel | hover | snapshot
deriving DecidableEq, Repr

/-- Interface `MCPAction` of the source: optional fields are `Option`,
`description` is mandatory.  (The `selector` field is never written by the
compiler and is omitted.) -/
structure MCPAction where
  type : ActionType
  element : Option Str := none
  value : Option Str := none
  url : Option Str := none
  condition : Option Str := none
  timeout : Option Nat := none
  description : Str := []
deriving DecidableEq, Repr

/-- The parts of interface `MCPContext` the compiler reads: base URL and
default credentials (loaded from the configuration provider). -/
structure MCPContext where
  applicationUrl : Str
  username : Str
  password : Str
deriving DecidableEq, Repr

/-- The file system seen by `readCSVData`: file name to file content,
`none` when `fs.existsSync` is false. -/
def FS := Str → Option Str

/-! ## Regex models (entity extraction helpers of the source) -/

/-- First alternative of `Option` results over a list, in order — models a
regex engine trying start positions in sequence. -/
def firstSome {α β : Type} (f : α → Option β) : List α → Option β
  | [] => none
  | a :: rest =>
    match f a with
    | some b => some b
    | none => firstSome f rest

/-- Start positions `0..s.length`, ascending (leftmost match). -/
def startsAsc (s : Str) : List Nat := List.range (s.length + 1)

/-- Model of `extractURL`: first match of `/https?:\/\/[^\s`'"]+/` (the character
after `://` classes exclude whitespace, backtick and both quote marks). -/
def isUrlChar (c : Char) : Bool :=
  !(isWs c) && c ≠ Char.ofNat 96 && c ≠ Char.ofNat 39 && c ≠ '"'

/-- One attempt of the URL regex at a fixed start position. -/
def urlAt (s : Str) (i : Nat) : Option Str :=
  let t := s.drop i
  let go : Str → Option Str := fun scheme =>
    if scheme.isPrefixOf t then
      let body := (t.drop scheme.length).takeWhile isUrlChar
      if body.isEmpty then none else some (scheme ++ body)
    else none
  match go (L "https://") with
  | some u => some u
  | none => go (L "http://")

/-- Model of `extractURL(step)`: `step.match(/https?:\/\/[^\s`'"]+/)`, first match or
`null`. -/
def extractURL (step : Str) : Option Str :=
  firstSome (urlAt step) (startsAsc step)

/-- Model of `extractURLs(text)`: `/https?:\/\/[^\s`'"]+/g` — all non-overlapping
matches, left to right (fuel = remaining length). -/
def extractURLsAux : Nat → Str → Nat → List Str
  | 0, _, _ => []
  | fuel+1, s, i =>
    if i > s.length then []
    else
      match urlAt s i with
      | some u => u :: extractURLsAux fuel s (i + u.length)
      | none => extractURLsAux fuel s (i + 1)

/-- Model of `extractURLs(text)`: list of all URL matches (empty when none). -/
def extractURLs (text : Str) : List Str :=
  extractURLsAux (text.length + 1) text 0

/-- Characters matched by `[:\s]`. -/
def isColonWs (c : Char) : Bool := c = ':' || isWs c

/-- One attempt of `/<label>[:\s]+"?([^"\s]+)"?/i` at start position `i`
(used by `extractCredentials`): case-insensitive label, at least one
colon/whitespace, optional quote, then a maximal non-empty run of
non-quote non-whitespace characters. -/
def credAt (label : Str) (s : Str) (i : Nat) : Option Str :=
  if label.isPrefixOf (toLower (s.drop i)) then
    let t := s.drop (i + label.length)
    let k := (t.takeWhile isColonWs).length
    if k = 0 then none
    else
      let rest := t.drop k
      let rest2 := if rest.head? = some '"' then rest.drop 1 else rest
      let cap := rest2.takeWhile (fun c => c ≠ '"' && !(isWs c))
      if cap.isEmpty then none else some cap
  else none

/-- Model of `extractCredentials(step)`: the two regexes
`/username[:\s]+"?([^"\s]+)"?/i` and `/password[:\s]+"?([^"\s]+)"?/i`,
leftmost match each, `undefined` when absent. -/
def extractCredentials (step : Str) : Option Str × Option Str :=
  (firstSome (credAt (L "username") step) (startsAsc step),
   firstSome (credAt (L "password") step) (startsAsc step))

/-- One attempt of `/<label>[:\s]+"([^"]+)"/i` at position `i` (used by
`extractFormFields`): label, colon/whitespace run, a quoted non-empty value
closed by a second quote. -/
def quotedAt (label : Str) (s : Str) (i : Nat) : Option Str :=
  if label.isPrefixOf (toLower (s.drop i)) then
    let t := s.drop (i + label.length)
    let k := (t.takeWhile isColonWs).length
    if k = 0 then none
    else
      let rest := t.drop k
      if rest.head? = some '"' then
        let cap := (rest.drop 1).takeWhile (fun c => c ≠ '"')
        if cap.isEmpty then none
        else if (rest.drop 1).drop cap.length ≠ [] then some cap else none
      else none
  else none

/-- Leftmost match of `/<label>[:\s]+"([^"]+)"/i`. -/
def extractQuoted (label : Str) (step : Str) : Option Str :=
  firstSome (quotedAt label step) (startsAsc step)

/-- One attempt of the `extractValue` regex
`new RegExp(`${field}\s+(?:as\s+)?"([^"]+)"`, 'i')` at position `i`:
label, a whitespace run, an optional `as` + whitespace, then a quoted
non-empty value. -/
def valueAt (field : Str) (s : Str) (i : Nat) : Option Str :=
  if field.isPrefixOf (toLower (s.drop i)) then
    let t := s.drop (i + field.length)
    let k := (t.takeWhile isWs).length
    if k = 0 then none
    else
      let rest := t.drop k
      let rest2 :=
        if (L "as").isPrefixOf (toLower rest) then
          let t2 := rest.drop 2
          let k2 := (t2.takeWhile isWs).length
          if k2 = 0 then rest else t2.drop k2
        else rest
      if rest2.head? = some '"' then
        let cap := (rest2.drop 1).takeWhile (fun c => c ≠ '"')
        if cap.isEmpty then none
        else if (rest2.drop 1).drop cap.length ≠ [] then some cap else none
      else none
  else none

/-- Model of `extractValue(content, field, defaultValue)`: leftmost match of the
regex above, or the default. -/
def extractValue (content field default : Str) : Str :=
  match firstSome (valueAt field content) (startsAsc content) with
  | some v => v
  | none => default

/-- One attempt of `/(\d+)\s*(?:ms|milliseconds|s|seconds)/i` at position
`i`: a maximal digit run, optional whitespace, then one of the unit
alternatives tried in source order (`ms` before `s`). -/
def timeoutAt (s : Str) (i : Nat) : Option Nat :=
  let t := s.drop i
  let digits := t.takeWhile isDigit
  if digits.isEmpty then none
  else
    let rest := (t.drop digits.length).dropWhile isWs
    let low := toLower rest
    if (L "ms").isPrefixOf low || (L "milliseconds").isPrefixOf low
       || (L "s").isPrefixOf low || (L "seconds").isPrefixOf low then
      some (parseNat digits)
    else none

/-- Model of `extractTimeout(step)`: leftmost match of the regex above; on a match
the source returns `value * 1000` when the raw step contains an `s` but no
`ms` (case-sensitive `includes`), else `value`; absent a match, 2000. -/
def extractTimeout (step : Str) : Nat :=
  match firstSome (timeoutAt step) (startsAsc step) with
  | some v => if containsSub step (L "s") && !(containsSub step (L "ms")) then v * 1000 else v
  | none => 2000

/-- One attempt of `/(\w+\.csv)/i` at position `i`: a maximal non-empty
word-character run followed by `.csv` (case-insensitive). -/
def csvTokenAt (s : Str) (i : Nat) : Option Str :=
  let t := s.drop i
  let w := t.takeWhile isWordChar
  if w.isEmpty then none
  else if (L ".csv").isPrefixOf (toLower (t.drop w.length)) then
    some (w ++ (t.drop w.length).take 4)
  else none

/-- Model of `extractCSVFileName(step)`: `step.match(/(\w+\.csv)/i)`, first match,
default `loginData.csv`. -/
def extractCSVFileName (step : Str) : Str :=
  match firstSome (csvTokenAt step) (startsAsc step) with
  | some t => t
  | none => L "loginData.csv"

/-- Model of `extractDataSources(text)`: `text.match(/(\w+\.csv)/gi)` — all
non-overlapping matches, left to right (fuel = remaining length). -/
def csvTokensAux : Nat → Str → Nat → List Str
  | 0, _, _ => []
  | fuel+1, s, i =>
    if i > s.length then []
    else
      match csvTokenAt s i with
      | some t => t :: csvTokensAux fuel s (i + t.length)
      | none => csvTokensAux fuel s (i + 1)

/-- Model of `extractDataSources(text)`: all `\w+\.csv` tokens, default
`['loginData.csv']` when none. -/
def extractDataSources (text : Str) : List Str :=
  match csvTokensAux (text.length + 1) text 0 with
  | [] => [L "loginData.csv"]
  | l => l

/-! ### The inline-triple regex (pattern 1 of `extractInlineDatasets`)

`/.*username:\s*([^,]+),.*password:\s*([^,]+),.*expected:\s*(.+)/i`

The leading greedy `.*` before each label makes the engine commit to the
rightmost occurrence of the label for which the remainder still matches;
`\s*([^,]+),` captures from the end of the greedy whitespace run up to the
first comma (the capture cannot contain a comma, so only the whitespace
run can backtrack, by exactly one character when it abuts the comma); and
`\s*(.+)` captures to the end of the line. -/

/-- Length of the leading whitespace run. -/
def wsLen (t : Str) : Nat := (t.takeWhile isWs).length

/-- Model of the regex fragment `\s*([^,]+),` applied at the current
position: returns the capture and the remainder after the comma. -/
def capToComma (t : Str) : Option (Str × Str) :=
  let j := t.findIdx (fun c => c = ',')
  if j < t.length then
    if j = 0 then none
    else
      let k := min (wsLen t) (j - 1)
      some ((t.drop k).take (j - k), t.drop (j + 1))
  else none

/-- Model of the trailing regex fragment `\s*(.+)` : capture to end of
line, non-empty. -/
def capToEnd (t : Str) : Option Str :=
  if t.isEmpty then none
  else some (t.drop (min (wsLen t) (t.length - 1)))

/-- Remainders after each occurrence of a (lowercase) label in `t`,
rightmost occurrence first — the backtracking order of a greedy `.*`
before the label, case-insensitive. -/
def labelRemainders (label : Str) (t : Str) : List Str :=
  (((List.range (t.length + 1)).filter
      (fun i => label.isPrefixOf (toLower (t.drop i)))).reverse).map
    (fun i => t.drop (i + label.length))

/-- Full model of pattern 1: captures `(username, password, expected)`
with the source's `.trim()` applied to each (`match[1].trim()` …). -/
def matchTriple (line : Str) : Option (Str × Str × Str) :=
  firstSome
    (fun r1 =>
      match capToComma r1 with
      | none => none
      | some (u, rest1) =>
        firstSome
          (fun r2 =>
            match capToComma r2 with
            | none => none
            | some (p, rest2) =>
              firstSome
                (fun r3 =>
                  match capToEnd r3 with
                  | none => none
                  | some e => some (trim u, trim p, trim e))
                (labelRemainders (L "expected:") rest2))
          (labelRemainders (L "password:") rest1))
    (labelRemainders (L "username:") line)

/-- One attempt of `/<label>[:\s]+([^,\s]+)/i` at position `i` (the
structured-block `username`/`password` regexes): label, colon/whitespace
run, then a maximal non-empty run of non-comma non-whitespace characters. -/
def labeledCompactAt (label : Str) (s : Str) (i : Nat) : Option Str :=
  if label.isPrefixOf (toLower (s.drop i)) then
    let t := s.drop (i + label.length)
    let k := (t.takeWhile isColonWs).length
    if k = 0 then none
    else
      let cap := (t.drop k).takeWhile (fun c => c ≠ ',' && !(isWs c))
      if cap.isEmpty then none else some cap
  else none

/-- Leftmost match of `/<label>[:\s]+([^,\s]+)/i`, trimmed by the caller. -/
def extractLabeledCompact (label : Str) (line : Str) : Option Str :=
  firstSome (labeledCompactAt label line) (startsAsc line)

/-- One attempt of `/expected[:\s]+(.+)/i` at position `i`: label,
colon/whitespace run, then everything to the end of the line; when the
greedy run consumes the whole remainder the engine backtracks one
character so that `(.+)` is non-empty. -/
def labeledRestAt (label : Str) (s : Str) (i : Nat) : Option Str :=
  if label.isPrefixOf (toLower (s.drop i)) then
    let t := s.drop (i + label.length)
    let k := (t.takeWhile isColonWs).length
    if k = 0 then none
    else if (t.drop k).isEmpty then
      if 2 ≤ k then some (t.drop (k - 1)) else none
    else some (t.drop k)
  else none

/-- Leftmost match of `/expected[:\s]+(.+)/i`. -/
def extractLabeledRest (label : Str) (line : Str) : Option Str :=
  firstSome (labeledRestAt label line) (startsAsc line)

/-- Model of `extractFieldValues(text)`: `text.match(/"([^"]+)"/g)` with the quotes
stripped (`match.slice(1, -1)`); all matches left to right. -/
def quotedValuesAux : Nat → Str → List Str
  | 0, _ => []
  | fuel+1, s =>
    match s with
    | [] => []
    | '"' :: rest =>
      let cap := rest.takeWhile (fun c => c ≠ '"')
      if cap.isEmpty then quotedValuesAux fuel rest
      else if rest.drop cap.length ≠ [] then
        cap :: quotedValuesAux fuel (rest.drop (cap.length + 1))
      else []
    | _ :: rest => quotedValuesAux fuel rest

/-- Model of `extractFieldValues(text)`. -/
def extractFieldValues (text : Str) : List Str :=
  quotedValuesAux (text.length + 1) text

/-! ## Intent classifier (`analyzeStepContext` and its helpers) -/

/-- The closed set of strings assigned to `context.primaryAction`. -/
inductive PrimaryAction
  | navigate | login | fill_form | click_element | verify_element
  | wait_action | complex_workflow | data_driven_test | unknown
deriving DecidableEq, Repr

/-- The classification record built by `analyzeStepContext`. -/
structure IntentContext where
  primaryAction : PrimaryAction
  elements : List Str := []
  values : List Str := []
  conditions : List Str := []
  modifiers : List Str := []
deriving DecidableEq, Repr

/-- Model of `matchesIntent(text, keywords)`:
`keywords.some(keyword => text.includes(keyword))`. -/
def matchesIntent (text : Str) (keywords : List Str) : Bool :=
  keywords.any (fun k => containsSub text k)

/-- Keyword table of `analyzeStepContext`, in source order. -/
def navKw : List Str := [L "navigate", L "open", L "go to", L "visit"]

/-- Login keywords. -/
def loginKw : List Str := [L "login", L "sign in", L "authenticate", L "enter credentials"]

/-- Form-fill keywords. -/
def fillKw : List Str := [L "enter", L "input", L "type", L "fill", L "provide"]

/-- Click keywords. -/
def clickKw : List Str := [L "click", L "press", L "select", L "choose", L "tap"]

/-- Verification keywords. -/
def verifyKw : List Str := [L "verify", L "check", L "confirm", L "validate", L "assert"]

/-- Wait keywords. -/
def waitKw : List Str := [L "wait", L "pause", L "delay"]

/-- Model of `extractFieldNames(text)`. -/
def extractFieldNames (text : Str) : List Str :=
  [L "first name", L "last name", L "email", L "username", L "password"].filter
    (fun f => containsSub text f)

/-- Model of `extractClickableElements(text)`. -/
def extractClickableElements (text : Str) : List Str :=
  [L "button", L "link", L "menu", L "icon", L "dropdown"].filter
    (fun e => containsSub text e)

/-- Model of `extractVerificationTargets(text)`. -/
def extractVerificationTargets (text : Str) : List Str :=
  [L "page", L "element", L "button", L "field", L "text", L "title"].filter
    (fun t => containsSub text t)

/-- Model of `extractVerificationConditions(text)`. -/
def extractVerificationConditions (text : Str) : List Str :=
  [L "visible", L "hidden", L "enabled", L "disabled", L "contains"].filter
    (fun c => containsSub text c)

/-- Model of `extractWaitConditions(text)`. -/
def extractWaitConditions (text : Str) : List Str :=
  [L "load", L "appear", L "disappear", L "complete"].filter
    (fun c => containsSub text c)

/-- Model of `extractDataDrivenModifiers(text)`. -/
def extractDataDrivenModifiers (text : Str) : List Str :=
  (if containsSub text (L "iteration") then [L "iterate"] else []) ++
  (if containsSub text (L "multiple") then [L "multiple"] else []) ++
  (if containsSub text (L "each row") then [L "per_row"] else [])

/-- Model of `isComplexWorkflow(step)`:
`step.includes(' and ') || step.includes(' then ') || step.split(' ').length > 10`. -/
def isComplexWorkflow (step : Str) : Bool :=
  containsSub step (L " and ") || containsSub step (L " then ")
    || decide ((splitSpaces step).length > 10)

/-- Model of `step.split(/ and | then /)` — scan left to right, the alternation
trying `" and "` before `" then "` at each position.  Fuel-structured
(every step consumes at least one character, so `s.length + 1` units of
fuel make the first case unreachable). -/
def sepSplitAux : Nat → Str → Str → List Str
  | 0, s, acc => [acc.reverse ++ s]
  | fuel+1, s, acc =>
    match s with
    | [] => [acc.reverse]
    | c :: rest =>
      if (L " and ").isPrefixOf (c :: rest) then
        acc.reverse :: sepSplitAux fuel (rest.drop 4) []
      else if (L " then ").isPrefixOf (c :: rest) then
        acc.reverse :: sepSplitAux fuel (rest.drop 5) []
      else sepSplitAux fuel rest (c :: acc)

/-- Model of `decomposeComplexStep(step)`: split on the connectors, then `trim`. -/
def decomposeComplexStep (step : Str) : List Str :=
  (sepSplitAux (step.length + 1) step []).map trim

/-- Model of `hasInlineDatasets(text)` — note the case-sensitive `Username:`
alternative, effective only on non-lowercased input. -/
def hasInlineDatasets (text : Str) : Bool :=
  (containsSub text (L "username:") && containsSub text (L "password:")
      && containsSub text (L "expected:"))
    || (containsSub text (L "- username:") || containsSub text (L "Username:"))
    || containsSub text (L "following dataset:")
    || containsSub text (L "test data:")

/-- Model of `isDataDrivenTest(text)`. -/
def isDataDrivenTest (text : Str) : Bool :=
  containsSub text (L "csv") || containsSub text (L "data-driven")
    || containsSub text (L "external dataset")
    || containsSub text (L "logindata.csv")
    || containsSub text (L "test data from")
    || hasInlineDatasets text

/-- Model of `[credentials.username || '', credentials.password || ''].filter(v => v)`. -/
def credValues (t : Str) : List Str :=
  let c := extractCredentials t
  [c.1.getD [], c.2.getD []].filter (fun v => !v.isEmpty)

/-- Model of `analyzeStepContext(stepText)`: the fixed if/else-if chain of the
source, in source order — navigate, login, fill, click, verify, wait,
complex workflow, data-driven, unknown. -/
def analyzeStepContext (stepText : Str) : IntentContext :=
  if matchesIntent stepText navKw then
    { primaryAction := .navigate, elements := extractURLs stepText }
  else if matchesIntent stepText loginKw then
    { primaryAction := .login, values := credValues stepText }
  else if matchesIntent stepText fillKw then
    { primaryAction := .fill_form, elements := extractFieldNames stepText,
      values := extractFieldValues stepText }
  else if matchesIntent stepText clickKw then
    { primaryAction := .click_element, elements := extractClickableElements stepText }
  else if matchesIntent stepText verifyKw then
    { primaryAction := .verify_element, elements := extractVerificationTargets stepText,
      conditions := extractVerificationConditions stepText }
  else if matchesIntent stepText waitKw then
    { primaryAction := .wait_action, modifiers := extractWaitConditions stepText }
  else if isComplexWorkflow stepText then
    { primaryAction := .complex_workflow }
  else if isDataDrivenTest stepText then
    { primaryAction := .data_driven_test, elements := extractDataSources stepText,
      modifiers := extractDataDrivenModifiers stepText }
  else
    { primaryAction := .unknown }

/-! ## Per-intent action generators -/

/-- Model of `Step ${n}` prefix of single-step descriptions. -/
def stepTag (n : Nat) : Str := L "Step " ++ natStr n

/-- Model of `Step ${n}.${i + 1}` prefix of data-driven row descriptions. -/
def rowTag (n i : Nat) : Str := L "Step " ++ natStr n ++ L "." ++ natStr (i + 1)

/-- Model of `generateNavigationActions`. -/
def generateNavigationActions (ctx : MCPContext) (n : Nat) (step : Str) : List MCPAction :=
  let url := (extractURL step).getD ctx.applicationUrl
  [{ type := .navigate, url := some url,
     description := stepTag n ++ L ": Navigate to " ++ url }]

/-- Model of `generateLoginActions`: fill username, fill password, click login,
wait 3000; extracted credentials fall back to the configured defaults. -/
def generateLoginActions (ctx : MCPContext) (n : Nat) (step : Str) : List MCPAction :=
  let c := extractCredentials step
  [{ type := .fill, element := some (L "username input field"),
     value := some (c.1.getD ctx.username),
     description := stepTag n ++ L ": Enter username" },
   { type := .fill, element := some (L "password input field"),
     value := some (c.2.getD ctx.password),
     description := stepTag n ++ L ": Enter password" },
   { type := .click, element := some (L "login button"),
     description := stepTag n ++ L ": Click login button" },
   { type := .wait, timeout := some 3000,
     description := stepTag n ++ L ": Wait for login to complete" }]

/-- Model of `extractFormFields`: the three quoted-field regexes, in source order. -/
def extractFormFields (step : Str) : List (Str × Str × Str) :=
  (match extractQuoted (L "first name") step with
   | some v => [(L "first name input field", v, L "first name")]
   | none => []) ++
  (match extractQuoted (L "last name") step with
   | some v => [(L "last name input field", v, L "last name")]
   | none => []) ++
  (match extractQuoted (L "email") step with
   | some v => [(L "email input field", v, L "email")]
   | none => [])

/-- Model of `generateFormActions`: one fill per extracted field; empty when
nothing is extracted. -/
def generateFormActions (n : Nat) (step : Str) : List MCPAction :=
  (extractFormFields step).map (fun f =>
    { type := .fill, element := some f.1, value := some f.2.1,
      description := stepTag n ++ L ": Enter " ++ f.2.2 })

/-- Model of `extractClickableElement(step)`: keyword lookup on the lowercased
step, with the `clickable element` default. -/
def extractClickableElement (step : Str) : Str :=
  let lowerStep := toLower step
  if containsSub lowerStep (L "pim")
      && (containsSub lowerStep (L "click") || containsSub lowerStep (L "module")) then
    L "PIM navigation link"
  else if containsSub lowerStep (L "add") && !(containsSub lowerStep (L "employee")) then
    L "Add Employee button"
  else if containsSub lowerStep (L "save") then
    L "save employee button"
  else if containsSub lowerStep (L "login") then
    L "login button"
  else if containsSub lowerStep (L "user") && containsSub lowerStep (L "icon") then
    L "user dropdown menu icon"
  else if containsSub lowerStep (L "logout") then
    L "logout button"
  else
    L "clickable element"

/-- Model of `triggersNavigation(step)`: case-sensitive `includes` on the raw step
text (the caller does not lowercase it). -/
def triggersNavigation (step : Str) : Bool :=
  containsSub step (L "pim") || containsSub step (L "add") || containsSub step (L "save")

/-- Model of `generateClickActions`: a click, plus a `Wait(2000)` when the raw step
text passes `triggersNavigation`. -/
def generateClickActions (n : Nat) (step : Str) : List MCPAction :=
  let element := extractClickableElement step
  [{ type := .click, element := some element,
     description := stepTag n ++ L ": Click " ++ element }] ++
  (if triggersNavigation step then
    [{ type := .wait, timeout := some 2000,
       description := stepTag n ++ L ": Wait for page transition" }]
   else [])

/-- Model of `extractVerificationDetails(step)`: case-sensitive `includes` on the
raw step text. -/
def extractVerificationDetails (step : Str) : Str × Str × Str :=
  if containsSub step (L "dashboard") then
    (L "dashboard page", L "visible", L "dashboard is displayed")
  else if containsSub step (L "employee") && containsSub step (L "profile") then
    (L "employee profile page", L "visible", L "employee profile page is displayed")
  else
    (L "page content", L "visible", L "page content is visible")

/-- Model of `generateVerificationActions`. -/
def generateVerificationActions (n : Nat) (step : Str) : List MCPAction :=
  let v := extractVerificationDetails step
  [{ type := .assert, element := some v.1, condition := some v.2.1,
     description := stepTag n ++ L ": Verify " ++ v.2.2 }]

/-- Model of `generateWaitActions`. -/
def generateWaitActions (n : Nat) (step : Str) : List MCPAction :=
  let t := extractTimeout step
  [{ type := .wait, timeout := some t,
     description := stepTag n ++ L ": Wait " ++ natStr t ++ L "ms" }]

/-- Model of `semanticAnalysis(step)` then `generateSemanticActions`: a single
click on `interactive element` whose description carries the step text. -/
def generateSemanticActions (n : Nat) (step : Str) : List MCPAction :=
  [{ type := .click, element := some (L "interactive element"),
     description := stepTag n ++ L ": " ++ step }]

/-- Model of `fallbackBasicParser(step, stepNumber)`. -/
def fallbackBasicParser (ctx : MCPContext) (n : Nat) (step : Str) : List MCPAction :=
  let lowerStep := toLower step
  if containsSub lowerStep (L "navigate") then
    [{ type := .navigate, url := some ctx.applicationUrl,
       description := stepTag n ++ L ": Navigate to application" }]
  else if containsSub lowerStep (L "login") then
    [{ type := .click, element := some (L "login button"),
       description := stepTag n ++ L ": Login action" }]
  else
    [{ type := .wait, timeout := some 1000,
       description := stepTag n ++ L ": Default wait action" }]

/-! ## Data-driven expander -/

/-- One extracted dataset row: `{ username, password, expected }`. -/
structure InlineRow where
  username : Str
  password : Str
  expected : Str
deriving DecidableEq, Repr

/-- Structured-block accumulator (`currentDataset`). -/
structure AccRec where
  username : Option Str := none
  password : Option Str := none
  expected : Option Str := none
deriving DecidableEq, Repr

/-- JavaScript truthiness of an accumulator field: present and non-empty. -/
def truthy : Option Str → Bool
  | none => false
  | some s => !s.isEmpty

/-- Marker test of the structured block:
`trimmedLine.includes('dataset') || trimmedLine.includes('test data')`. -/
def isMarkerLine (line : Str) : Bool :=
  let t := toLower (trim line)
  containsSub t (L "dataset") || containsSub t (L "test data")

/-- Label presence used before each structured-block regex:
`trimmedLine.includes(lbl) && trimmedLine.includes(':')`. -/
def hasLabel (lbl : Str) (line : Str) : Bool :=
  let t := toLower (trim line)
  containsSub t lbl && containsSub t (L ":")

/-- One structured-block iteration applied to the accumulator: the three
sequential `if`s of the source (username, password, expected), the
expected branch emitting a row when all three fields are truthy. -/
def scanLine (cur : AccRec) (line : Str) : AccRec × List InlineRow :=
  let cur1 :=
    if hasLabel (L "username") line then
      match extractLabeledCompact (L "username") line with
      | some v => { cur with username := some (trim v) }
      | none => cur
    else cur
  let cur2 :=
    if hasLabel (L "password") line then
      match extractLabeledCompact (L "password") line with
      | some v => { cur1 with password := some (trim v) }
      | none => cur1
    else cur1
  if hasLabel (L "expected") line then
    match extractLabeledRest (L "expected") line with
    | some v =>
      let cur3 := { cur2 with expected := some (trim v) }
      if truthy cur3.username && truthy cur3.password && truthy cur3.expected then
        ({}, [⟨cur3.username.getD [], cur3.password.getD [], cur3.expected.getD []⟩])
      else (cur3, [])
    | none => (cur2, [])
  else (cur2, [])

/-- The structured-block loop of `extractInlineDatasets`: marker lines set
`inDatasetSection` and are skipped; other lines feed the accumulator only
once the section flag is set; a trailing incomplete accumulator emits
nothing. -/
def structuredScanAux : Bool → AccRec → List Str → List InlineRow
  | _, _, [] => []
  | inSec, cur, line :: rest =>
    if isMarkerLine line then structuredScanAux true cur rest
    else if inSec then
      let r := scanLine cur line
      r.2 ++ structuredScanAux true r.1 rest
    else structuredScanAux false cur rest

/-- Model of `extractInlineDatasets(text)`: pattern 1 (single-line triples) over all
lines; if and only if that yields nothing, the structured block scan. -/
def extractInlineDatasets (text : Str) : List InlineRow :=
  let lines := splitLines text
  let ds := lines.filterMap (fun l =>
    (matchTriple l).map (fun t => InlineRow.mk t.1 t.2.1 t.2.2))
  if ds.isEmpty then structuredScanAux false {} lines else ds

/-- Loop body of `generateInlineDataActions` for one dataset row at index
`idx` out of `total`: navigate, fill username, fill password, click login,
wait 3000, the conditional assert, the conditional logout block, and a
separator wait before the next test case. -/
def inlineRowActions (ctx : MCPContext) (n : Nat) (step : Str) (total idx : Nat)
    (row : InlineRow) : List MCPAction :=
  [{ type := .navigate, url := some ctx.applicationUrl,
     description := rowTag n idx ++ L ": Navigate to login page for test case " ++ natStr (idx + 1) },
   { type := .fill, element := some (L "username input field"), value := some row.username,
     description := rowTag n idx ++ L ": Enter username \"" ++ row.username ++ L "\"" },
   { type := .fill, element := some (L "password input field"), value := some row.password,
     description := rowTag n idx ++ L ": Enter password \"" ++ row.password ++ L "\"" },
   { type := .click, element := some (L "login button"),
     description := rowTag n idx ++ L ": Click login button" },
   { type := .wait, timeout := some 3000,
     description := rowTag n idx ++ L ": Wait for login response" }] ++
  (if containsSub (toLower row.expected) (L "dashboard") then
    [{ type := .assert, element := some (L "dashboard page"), condition := some (L "visible"),
       description := rowTag n idx ++ L ": Verify dashboard is displayed for valid credentials" }]
   else if containsSub (toLower row.expected) (L "invalid")
       || containsSub (toLower row.expected) (L "error") then
    [{ type := .assert, element := some (L "error message"),
       condition := some (L "contains:Invalid credentials"),
       description := rowTag n idx ++ L ": Verify error message for invalid credentials" }]
   else []) ++
  (if containsSub (toLower row.expected) (L "dashboard")
      && containsSub (toLower step) (L "logout") then
    [{ type := .click, element := some (L "user dropdown menu"),
       description := rowTag n idx ++ L ": Click user dropdown menu" },
     { type := .click, element := some (L "logout button"),
       description := rowTag n idx ++ L ": Click logout button" },
     { type := .wait, timeout := some 2000,
       description := rowTag n idx ++ L ": Wait for logout to complete" }]
   else []) ++
  (if idx < total - 1 then
    [{ type := .wait, timeout := some 1000,
       description := rowTag n idx ++ L ": Wait before next test case" }]
   else [])

/-- The `inlineData.forEach((dataset, index) => …)` loop. -/
def inlineRowsLoop (ctx : MCPContext) (n : Nat) (step : Str) (total : Nat) :
    Nat → List InlineRow → List MCPAction
  | _, [] => []
  | idx, r :: rest =>
    inlineRowActions ctx n step total idx r ++ inlineRowsLoop ctx n step total (idx + 1) rest

/-- Model of `generateInlineDataActions(step, stepNumber)`.  The source wraps the
loop in `try/catch` with a single-navigate fallback; the extraction is
total here, so the catch branch is unreachable and omitted. -/
def generateInlineDataActions (ctx : MCPContext) (n : Nat) (step : Str) : List MCPAction :=
  let rows := extractInlineDatasets step
  inlineRowsLoop ctx n step rows.length 0 rows

/-! ### External CSV rows -/

/-- A parsed CSV row: header name to cell value, in header order (later
duplicate headers overwrite earlier ones on lookup, as JS object
assignment does). -/
def CSVRow := List (Str × Str)

/-- JS property lookup on a row object: last assignment wins. -/
def rowGet (row : CSVRow) (key : Str) : Option Str :=
  (row.reverse.find? (fun p => p.1 = key)).map (fun p => p.2)

/-- Truthy lookup: a present, non-empty cell. -/
def rowGetTruthy (row : CSVRow) (key : Str) : Option Str :=
  match rowGet row key with
  | some v => if v.isEmpty then none else some v
  | none => none

/-- Model of `row.Username || row.username || ''` (and the password/expected
analogues). -/
def getField (row : CSVRow) (k1 k2 : Str) : Str :=
  match rowGetTruthy row k1 with
  | some v => v
  | none =>
    match rowGetTruthy row k2 with
    | some v => v
    | none => []

/-- Model of `${row.Username || row.username}` inside a template literal: a falsy
first field falls through to the second, and an absent second field
renders as the string `undefined`. -/
def getFieldDesc (row : CSVRow) (k1 k2 : Str) : Str :=
  match rowGetTruthy row k1 with
  | some v => v
  | none =>
    match rowGet row k2 with
    | some v => v
    | none => L "undefined"

/-- Model of `readCSVData(fileName)`: missing file or fewer than two lines yields
`[]`; otherwise the first line is the trimmed header row and each later
line becomes a row object with `row[header] = values[index] || ''`. -/
def readCSVData (fs : FS) (fileName : Str) : List CSVRow :=
  match fs fileName with
  | none => []
  | some content =>
    let lines := splitLines (trim content)
    if lines.length < 2 then []
    else
      let headers := (splitOnChar ',' (lines.headD [])).map trim
      lines.tail.map (fun line =>
        let values := (splitOnChar ',' line).map trim
        (List.range headers.length).map (fun i =>
          (headers.getD i [], values.getD i [])))

/-- Loop body of `generateCSVDataActions` for one CSV row: like the inline
block but with no logout subsequence, and the error-message assert keyed
on `invalid` only (`error` alone emits no assertion). -/
def csvRowActions (ctx : MCPContext) (n : Nat) (total idx : Nat) (row : CSVRow) :
    List MCPAction :=
  let expected := getField row (L "Expected") (L "expected")
  [{ type := .navigate, url := some ctx.applicationUrl,
     description := rowTag n idx ++ L ": Navigate to login page for test case " ++ natStr (idx + 1) },
   { type := .fill, element := some (L "username input field"),
     value := some (getField row (L "Username") (L "username")),
     description := rowTag n idx ++ L ": Enter username \"" ++ getFieldDesc row (L "Username") (L "username") ++ L "\"" },
   { type := .fill, element := some (L "password input field"),
     value := some (getField row (L "Password") (L "password")),
     description := rowTag n idx ++ L ": Enter password \"" ++ getFieldDesc row (L "Password") (L "password") ++ L "\"" },
   { type := .click, element := some (L "login button"),
     description := rowTag n idx ++ L ": Click login button" },
   { type := .wait, timeout := some 3000,
     description := rowTag n idx ++ L ": Wait for login response" }] ++
  (if containsSub (toLower expected) (L "dashboard") then
    [{ type := .assert, element := some (L "dashboard page"), condition := some (L "visible"),
       description := rowTag n idx ++ L ": Verify dashboard is displayed for valid credentials" }]
   else if containsSub (toLower expected) (L "invalid") then
    [{ type := .assert, element := some (L "error message"),
       condition := some (L "contains:Invalid credentials"),
       description := rowTag n idx ++ L ": Verify error message for invalid credentials" }]
   else []) ++
  (if idx < total - 1 then
    [{ type := .wait, timeout := some 1000,
       description := rowTag n idx ++ L ": Wait before next test case" }]
   else [])

/-- The `csvData.forEach((row, index) => …)` loop. -/
def csvRowsLoop (ctx : MCPContext) (n : Nat) (total : Nat) :
    Nat → List CSVRow → List MCPAction
  | _, [] => []
  | idx, r :: rest =>
    csvRowActions ctx n total idx r ++ csvRowsLoop ctx n total (idx + 1) rest

/-- Model of `generateCSVDataActions(step, stepNumber)`: resolve the file name and
loop over the rows; `readCSVData` is total (it returns `[]` instead of
throwing), so the source's catch branch (a single navigate action) is
unreachable and omitted. -/
def generateCSVDataActions (ctx : MCPContext) (fs : FS) (n : Nat) (step : Str) :
    List MCPAction :=
  let csvData := readCSVData fs (extractCSVFileName step)
  csvRowsLoop ctx n csvData.length 0 csvData

/-- Model of `generateDataDrivenActions(step, stepNumber, context)`: inline when
`hasInlineDatasets(step)` (on the raw step text), else external CSV. -/
def generateDataDrivenActions (ctx : MCPContext) (fs : FS) (n : Nat) (step : Str) :
    List MCPAction :=
  if hasInlineDatasets step then generateInlineDataActions ctx n step
  else generateCSVDataActions ctx fs n step

/-! ## Step parser pipeline -/

/-- Model of `intelligentStepParser(step, stepNumber)`: classify the lowercased,
trimmed step text and dispatch to a generator.  The `complex_workflow`
branch (`generateWorkflowActions`) re-enters this function on each
sub-clause with **no depth bound in the source**; the recursion is
modelled with explicit fuel, `none` standing for exhaustion of the call
stack (a thrown `RangeError` in JavaScript). -/
def intelligentStepParser (ctx : MCPContext) (fs : FS) : Nat → Nat → Str → Option (List MCPAction)
  | 0, _, _ => none
  | fuel+1, n, step =>
    let stepText := trim (toLower step)
    match (analyzeStepContext stepText).primaryAction with
    | .navigate => some (generateNavigationActions ctx n step)
    | .login => some (generateLoginActions ctx n step)
    | .fill_form => some (generateFormActions n step)
    | .click_element => some (generateClickActions n step)
    | .verify_element => some (generateVerificationActions n step)
    | .wait_action => some (generateWaitActions n step)
    | .complex_workflow =>
      ((decomposeComplexStep step).mapM
        (fun sub => intelligentStepParser ctx fs fuel n sub)).map List.flatten
    | .data_driven_test => some (generateDataDrivenActions ctx fs n step)
    | .unknown => some (generateSemanticActions n step)

/-- Model of `parseSimpleStep(step, stepNumber)`: the intelligent parser's result
when non-empty; the basic fallback when it yields zero actions or throws
(stack exhaustion, modelled as `none`). -/
def parseSimpleStep (ctx : MCPContext) (fs : FS) (fuel n : Nat) (step : Str) : List MCPAction :=
  match intelligentStepParser ctx fs fuel n step with
  | some (a :: rest) => a :: rest
  | some [] => fallbackBasicParser ctx n step
  | none => fallbackBasicParser ctx n step

/-- The anchored part of `isStepByStepPrompt`:
`/^\s*\d+\.\s/.test(content)` (no `m` flag, so only the start of the whole
prompt is inspected). -/
def startsNumbered (content : Str) : Bool :=
  let t := content.dropWhile isWs
  let d := t.takeWhile isDigit
  !d.isEmpty && ((t.drop d.length).headD ' ' = '.')
    && isWs ((t.drop (d.length + 1)).headD 'x')

/-- Model of `isStepByStepPrompt(content)`. -/
def isStepByStepPrompt (content : Str) : Bool :=
  startsNumbered content || containsSub content (L "1.") || containsSub content (L "2.")

/-- Model of `/^\d+\.\s/.test(trimmedLine)`: the per-line numbered-step test. -/
def lineIsStep (l : Str) : Bool :=
  let d := l.takeWhile isDigit
  !d.isEmpty && ((l.drop d.length).headD ' ' = '.')
    && isWs ((l.drop (d.length + 1)).headD 'x')

/-- Model of `step.replace(/^\d+\.\s*/, '')`: strip the number prefix when the
anchored pattern matches (the `\s*` may be empty). -/
def stripStepNum (l : Str) : Str :=
  let d := l.takeWhile isDigit
  if !d.isEmpty && ((l.drop d.length).headD ' ' = '.') then
    (l.drop (d.length + 1)).dropWhile isWs
  else l

/-- The indexed loop of `parseStepByStepPrompt`
(`parseSimpleStep(stepContent, i + 1)`). -/
def stepsLoop (ctx : MCPContext) (fs : FS) (fuel : Nat) : Nat → List Str → List MCPAction
  | _, [] => []
  | i, l :: rest =>
    parseSimpleStep ctx fs fuel (i + 1) (stripStepNum l) ++ stepsLoop ctx fs fuel (i + 1) rest

/-- Model of `parseStepByStepPrompt(content)`: keep only trimmed lines matching
`/^\d+\.\s/` and parse each in order. -/
def parseStepByStepPrompt (ctx : MCPContext) (fs : FS) (fuel : Nat) (content : Str) :
    List MCPAction :=
  let stepLines := ((splitLines content).map trim).filter lineIsStep
  stepsLoop ctx fs fuel 0 stepLines

/-- Model of `getActionPatterns(content)`: the fixed trigger/action table of the
whole-prompt pattern matcher, in source order. -/
def getActionPatterns (ctx : MCPContext) (content : Str) :
    List (List Str × List MCPAction) :=
  [([L "navigate", L "open", L "go to"],
    [{ type := .navigate, url := some ctx.applicationUrl,
       description := L "Navigate to application" }]),
   ([L "login", L "username", L "password", L "admin", L "credential"],
    [{ type := .fill, element := some (L "username input field"),
       value := some ctx.username, description := L "Enter username" },
     { type := .fill, element := some (L "password input field"),
       value := some ctx.password, description := L "Enter password" },
     { type := .click, element := some (L "login button"),
       description := L "Click login button" },
     { type := .wait, timeout := some 3000,
       description := L "Wait for login to complete" }]),
   ([L "dashboard", L "verify", L "confirm"],
    [{ type := .assert, element := some (L "dashboard page"),
       condition := some (L "visible"),
       description := L "Verify dashboard is displayed" }]),
   ([L "pim", L "employee"],
    [{ type := .click, element := some (L "PIM navigation link"),
       description := L "Navigate to PIM" }]),
   ([L "add", L "employee", L "first name", L "last name"],
    [{ type := .click, element := some (L "Add Employee button"),
       description := L "Click Add Employee button" },
     { type := .fill, element := some (L "first name input field"),
       value := some (extractValue content (L "first name") (L "John123")),
       description := L "Enter first name" },
     { type := .fill, element := some (L "last name input field"),
       value := some (extractValue content (L "last name") (L "Doe456")),
       description := L "Enter last name" },
     { type := .click, element := some (L "save employee button"),
       description := L "Save employee" },
     { type := .wait, timeout := some 2000,
       description := L "Wait for employee to be saved" },
     { type := .assert, element := some (L "employee name display"),
       condition := some (L "contains:John123 Doe456"),
       description := L "Verify employee name on profile" }]),
   ([L "logout", L "user icon", L "sign out"],
    [{ type := .click, element := some (L "user dropdown menu"),
       description := L "Open user dropdown" },
     { type := .click, element := some (L "logout button"),
       description := L "Click logout" }])]

/-- Model of `matchesPattern(content, triggers)`. -/
def matchesPattern (content : Str) (triggers : List Str) : Bool :=
  triggers.any (fun t => containsSub content t)

/-- Model of `parsePromptToActions(prompt)` on `content = prompt.content`:
data-driven check first (on the lowercased content), then the
numbered-step path (on the raw content), then the whole-prompt pattern
table with a default navigate action when nothing matched. -/
def parsePromptToActions (ctx : MCPContext) (fs : FS) (fuel : Nat) (content : Str) :
    List MCPAction :=
  let lower := toLower content
  if isDataDrivenTest lower then
    generateDataDrivenActions ctx fs 1 content
  else if isStepByStepPrompt lower then
    parseStepByStepPrompt ctx fs fuel content
  else
    let acts :=
      (((getActionPatterns ctx lower).filter
          (fun p => matchesPattern lower p.1)).map (fun p => p.2)).flatten
    if acts.isEmpty then
      [{ type := .navigate, url := some ctx.applicationUrl,
         description := L "Navigate to application (default action)" }]
    else acts

/-! ## Observation helpers and concrete fixtures used by the theorems -/

/-- Values of the fill actions targeting a given element, in order. -/
def fillValues (elem : Str) (acts : List MCPAction) : List (Option Str) :=
  acts.filterMap (fun a =>
    if a.type = .fill ∧ a.element = some elem then some a.value else none)

/-- Number of click actions targeting a given element. -/
def clickCount (elem : Str) (acts : List MCPAction) : Nat :=
  (acts.filterMap (fun a =>
    if a.type = .click ∧ a.element = some elem then some a else none)).length

/-- The assert actions of a sequence, in order. -/
def assertActions (acts : List MCPAction) : List MCPAction :=
  acts.filterMap (fun a => if a.type = .assert then some a else none)

/-- Pattern-1 rows of a text: one per line matched by the single-line
triple regex. -/
def singleLineRows (text : Str) : List InlineRow :=
  (splitLines text).filterMap (fun l =>
    (matchTriple l).map (fun t => InlineRow.mk t.1 t.2.1 t.2.2))

/-- A concrete configuration for closed instances. -/
def cctx : MCPContext :=
  { applicationUrl := L "https://example.test/login",
    username := L "Admin", password := L "admin123" }

/-- The empty file system (every file missing). -/
def cfs : FS := fun _ => none

/-- A file system holding one CSV file whose single data row has an
`Expected` cell reading `Error shown`. -/
def errCsvFS : FS := fun n =>
  if n = L "data.csv" then
    some (L "Username,Password,Expected\nbob,pw,Error shown")
  else none

/-- The pathological step for the workflow recursion: eleven words, no
intent keyword, no connector. -/
def badWorkflowStep : Str := L "aaa bbb ccc ddd eee fff ggg hhh iii jjj kkk"

/-- An inline prompt with two well-formed single-line triples. -/
def tripleText : Str :=
  L "Test with dataset:\n- Username: Admin, Password: admin123, Expected: Dashboard visible\n- Username: bob, Password: wrong, Expected: Invalid credentials"

/-- A structured multi-line inline block: marker, then labelled lines. -/
def structuredText : Str := L "dataset:\nusername: a\npassword: b\nexpected: ok"

/-- The same block with the trailing `expected` line missing. -/
def structuredIncompleteText : Str := L "dataset:\nusername: a\npassword: b"

/-- The same block with the marker line missing. -/
def structuredNoMarkerText : Str := L "username: a\npassword: b\nexpected: ok"

/-! ## Theorems -/

/-- C9: clickable-element extraction lowercases the step, so both
`Click the PIM link` and `click the pim link` resolve to the
`PIM navigation link`; `triggersNavigation` inspects the raw step text
case-sensitively, so only the all-lowercase step gets the trailing
`Wait(2000)`: the uppercase step compiles to a single click, the
lowercase one to a click followed by a 2000 ms wait. -/
theorem pim_click_case_sensitivity :
    extractClickableElement (L "Click the PIM link") = L "PIM navigation link" ∧
    extractClickableElement (L "click the pim link") = L "PIM navigation link" ∧
    triggersNavigation (L "Click the PIM link") = false ∧
    triggersNavigation (L "click the pim link") = true ∧
    intelligentStepParser cctx cfs 2 1 (L "Click the PIM link") =
      some [{ type := .click, element := some (L "PIM navigation link"),
              description := L "Step 1: Click PIM navigation link" }] ∧
    intelligentStepParser cctx cfs 2 1 (L "click the pim link") =
      some [{ type := .click, element := some (L "PIM navigation link"),
              description := L "Step 1: Click PIM navigation link" },
            { type := .wait, timeout := some 2000,
              description := L "Step 1: Wait for page transition" }] := by
  refine ⟨by decide, by decide, by decide, by decide, by decide, by decide⟩

/-- C1 counterexample: the non-empty prompt `test data:` is detected as
data-driven (inline marker), the inline extractor finds zero rows, and
`parsePromptToActions` returns the empty sequence — no fallback action is
synthesized on the data-driven path. -/
theorem parse_empty_on_bare_marker :
    parsePromptToActions cctx cfs 5 (L "test data:") = [] ∧ L "test data:" ≠ [] := by
  refine ⟨by decide, by decide⟩

/-- C3 counterexample: a step text that contains a dataset marker (a
`.csv` filename token, so `isDataDrivenTest` holds) but also the
lower-priority keyword `click` is classified `click_element`, not
`data_driven_test` — per-step classification does not give dataset
markers highest priority. -/
theorem dataset_marker_step_classified_click :
    isDataDrivenTest (toLower (L "click the save button using file testdata.csv")) = true ∧
    (analyzeStepContext (toLower (L "click the save button using file testdata.csv"))).primaryAction
      = .click_element := by
  refine ⟨by decide, by decide⟩

/-- C4 counterexample: a prompt referencing a nonexistent CSV file
compiles to the empty sequence — not to a single default-credential login
subsequence. -/
theorem missing_csv_yields_empty_sequence :
    parsePromptToActions cctx cfs 5 (L "test using data from missing.csv") = [] := by
  decide

/-- C5 counterexample: an external CSV row whose `Expected` cell is
`Error shown` (contains `error` but not `invalid`) yields a subsequence
with no assert action at all — the CSV path, unlike the inline path, does
not key the error assert on `error`. -/
theorem csv_error_row_gets_no_assert :
    (readCSVData errCsvFS (L "data.csv")).length = 1 ∧
    containsSub (toLower (getField ((readCSVData errCsvFS (L "data.csv")).headD []) (L "Expected") (L "expected"))) (L "error") = true ∧
    assertActions (generateCSVDataActions cctx errCsvFS 1 (L "data.csv")) = [] ∧
    generateCSVDataActions cctx errCsvFS 1 (L "data.csv") ≠ [] := by
  refine ⟨by decide, by decide, by decide, by decide⟩

/-- C6 counterexample: the step `hello world` has no recognizable verb,
yet the compiler emits one click on `interactive element` (semantic
fallback), not a `Wait(1000)` tagged as an unclassified step. -/
theorem unknown_step_yields_click_not_wait :
    parseSimpleStep cctx cfs 5 1 (L "hello world") =
      [{ type := .click, element := some (L "interactive element"),
         description := L "Step 1: hello world" }] := by
  decide

/-- The pathological step is lowercase and trimmed already. -/
theorem trim_toLower_badWorkflowStep : trim (toLower badWorkflowStep) = badWorkflowStep := by
  decide

/-- The pathological step is classified `complex_workflow` (eleven words,
no keyword). -/
theorem analyze_badWorkflowStep :
    analyzeStepContext badWorkflowStep = { primaryAction := .complex_workflow } := by
  decide

/-- Decomposition returns the pathological step unchanged: it contains no
connector, so the split yields the whole (already trimmed) text. -/
theorem decompose_badWorkflowStep :
    decomposeComplexStep badWorkflowStep = [badWorkflowStep] := by
  decide

/-- C2: the compound-step decomposition has **no depth bound in the code**.
On a step of more than ten words with no intent keyword and no
`and`/`then` connector, classification yields `complex_workflow`,
decomposition returns the very same text, and `intelligentStepParser`
re-enters itself with an identical argument: the recursion exhausts every
stack budget (`none` for all fuel values) instead of stopping at depth 2
with an `unknown` classification. -/
theorem workflow_recursion_unbounded (ctx : MCPContext) (fs : FS) (fuel n : Nat) :
    intelligentStepParser ctx fs fuel n badWorkflowStep = none := by
  induction fuel with
  | zero => rfl
  | succ f ih =>
    show intelligentStepParser ctx fs (f + 1) n badWorkflowStep = none
    unfold intelligentStepParser
    simp only [trim_toLower_badWorkflowStep, analyze_badWorkflowStep,
      decompose_badWorkflowStep, List.mapM_cons, List.mapM_nil, ih]
    rfl

/-- The basic fallback parser always emits exactly one action. -/
theorem fallbackBasicParser_ne_nil (ctx : MCPContext) (n : Nat) (step : Str) :
    fallbackBasicParser ctx n step ≠ [] := by
  unfold fallbackBasicParser
  dsimp only
  split_ifs <;> simp

/-- A parsed step always yields at least one action: the intelligent
parser's non-empty result, or the basic fallback. -/
theorem parseSimpleStep_ne_nil (ctx : MCPContext) (fs : FS) (fuel n : Nat) (step : Str) :
    parseSimpleStep ctx fs fuel n step ≠ [] := by
  unfold parseSimpleStep
  cases h : intelligentStepParser ctx fs fuel n step with
  | none => exact fallbackBasicParser_ne_nil ctx n step
  | some l =>
    cases l with
    | nil => exact fallbackBasicParser_ne_nil ctx n step
    | cons a rest => simp

/-- C1 amended: the non-emptiness guarantee holds on the pattern path
(default navigate action) and on every parsed numbered step (basic
fallback), hence on the step-by-step path whenever at least one line
matches the numbered-step pattern; the data-driven path is exempt — it
returns the empty sequence when zero dataset rows are extracted (see the
counterexample). -/
theorem parse_nonempty_guarantees :
    (∀ (ctx : MCPContext) (fs : FS) (fuel : Nat) (content : Str),
      isDataDrivenTest (toLower content) = false →
      isStepByStepPrompt (toLower content) = false →
      parsePromptToActions ctx fs fuel content ≠ []) ∧
    (∀ (ctx : MCPContext) (fs : FS) (fuel n : Nat) (step : Str),
      parseSimpleStep ctx fs fuel n step ≠ []) ∧
    (∀ (ctx : MCPContext) (fs : FS) (fuel : Nat) (content : Str),
      isDataDrivenTest (toLower content) = false →
      isStepByStepPrompt (toLower content) = true →
      ((splitLines content).map trim).filter lineIsStep ≠ [] →
      parsePromptToActions ctx fs fuel content ≠ []) := by
  refine ⟨?_, parseSimpleStep_ne_nil, ?_⟩
  · intro ctx fs fuel content h1 h2
    unfold parsePromptToActions
    simp only [h1, h2, Bool.false_eq_true, if_false]
    split
    · simp
    · next h =>
      simp only [List.isEmpty_iff] at h
      exact h
  · intro ctx fs fuel content h1 h2 h3
    unfold parsePromptToActions
    simp only [h1, h2, Bool.false_eq_true, if_false, if_true]
    unfold parseStepByStepPrompt
    cases hl : ((splitLines content).map trim).filter lineIsStep with
    | nil => exact absurd hl h3
    | cons l rest =>
      show stepsLoop ctx fs fuel 0 (l :: rest) ≠ []
      unfold stepsLoop
      intro hcontra
      rw [List.append_eq_nil] at hcontra
      exact parseSimpleStep_ne_nil ctx fs fuel 1 (stripStepNum l) hcontra.1

/-- Closed instance of `parse_nonempty_guarantees`: a pattern-path prompt,
a single parsed step, and a numbered-step prompt all compile to non-empty
sequences. -/
theorem parse_nonempty_guarantees_witness :
    parsePromptToActions cctx cfs 1 (L "hello") ≠ [] ∧
    parseSimpleStep cctx cfs 1 1 (L "hello") ≠ [] ∧
    parsePromptToActions cctx cfs 3 (L "1. go to the site") ≠ [] :=
  ⟨parse_nonempty_guarantees.1 cctx cfs 1 (L "hello") (by decide) (by decide),
   parse_nonempty_guarantees.2.1 cctx cfs 1 1 (L "hello"),
   parse_nonempty_guarantees.2.2 cctx cfs 3 (L "1. go to the site")
     (by decide) (by decide) (by decide)⟩

/-- C3 amended: data-driven markers have highest priority only at the
whole-prompt level (`parsePromptToActions` routes the entire prompt to the
data-driven generator before any step parsing); within per-step
classification the data-driven check comes **last** — a step matching a
click keyword is classified `click_element` even when it carries a
dataset marker, and `data_driven_test` is assigned only when every other
intent, including compound-clause detection, fails. -/
theorem dataDriven_priority_structure :
    (∀ (ctx : MCPContext) (fs : FS) (fuel : Nat) (content : Str),
      isDataDrivenTest (toLower content) = true →
      parsePromptToActions ctx fs fuel content = generateDataDrivenActions ctx fs 1 content) ∧
    (∀ t : Str, matchesIntent t navKw = false → matchesIntent t loginKw = false →
      matchesIntent t fillKw = false → matchesIntent t clickKw = true →
      (analyzeStepContext t).primaryAction = .click_element) ∧
    (∀ t : Str, matchesIntent t navKw = false → matchesIntent t loginKw = false →
      matchesIntent t fillKw = false → matchesIntent t clickKw = false →
      matchesIntent t verifyKw = false → matchesIntent t waitKw = false →
      isComplexWorkflow t = false → isDataDrivenTest t = true →
      (analyzeStepContext t).primaryAction = .data_driven_test) := by
  refine ⟨?_, ?_, ?_⟩
  · intro ctx fs fuel content h
    unfold parsePromptToActions
    simp only [h, if_true]
  · intro t h1 h2 h3 h4
    unfold analyzeStepContext
    simp only [h1, h2, h3, h4, Bool.false_eq_true, if_false, if_true]
  · intro t h1 h2 h3 h4 h5 h6 h7 h8
    unfold analyzeStepContext
    simp only [h1, h2, h3, h4, h5, h6, h7, h8, Bool.false_eq_true, if_false, if_true]

/-- Closed instance of `dataDriven_priority_structure`. -/
theorem dataDriven_priority_structure_witness :
    parsePromptToActions cctx cfs 2 (L "testdata.csv rows") =
      generateDataDrivenActions cctx cfs 1 (L "testdata.csv rows") ∧
    (analyzeStepContext (L "click the box")).primaryAction = .click_element ∧
    (analyzeStepContext (L "testdata.csv rows")).primaryAction = .data_driven_test :=
  ⟨dataDriven_priority_structure.1 cctx cfs 2 (L "testdata.csv rows") (by decide),
   dataDriven_priority_structure.2.1 (L "click the box")
     (by decide) (by decide) (by decide) (by decide),
   dataDriven_priority_structure.2.2 (L "testdata.csv rows")
     (by decide) (by decide) (by decide) (by decide)
     (by decide) (by decide) (by decide) (by decide)⟩

/-- C4 amended: a data-driven step whose resolved CSV file is missing
degrades to an empty dataset **and an empty compiled subsequence** — the
row loop runs zero times; no default-credential login block (and no error)
is produced. -/
theorem missing_csv_degrades_to_empty (ctx : MCPContext) (fs : FS) (n : Nat) (step : Str)
    (h : fs (extractCSVFileName step) = none) :
    readCSVData fs (extractCSVFileName step) = [] ∧
    generateCSVDataActions ctx fs n step = [] := by
  constructor
  · unfold readCSVData
    rw [h]
  · unfold generateCSVDataActions readCSVData
    rw [h]
    rfl

/-- Closed instance of `missing_csv_degrades_to_empty`. -/
theorem missing_csv_degrades_to_empty_witness :
    cfs (extractCSVFileName (L "run rows from absent.csv")) = none ∧
    generateCSVDataActions cctx cfs 1 (L "run rows from absent.csv") = [] :=
  ⟨rfl, (missing_csv_degrades_to_empty cctx cfs 1 (L "run rows from absent.csv") rfl).2⟩

/-- C8: with the configuration, file-system snapshot and stack budget
fixed, compilation and classification are pure functions of the prompt
text: identical text yields structurally identical ActionSequences and
identical IntentContexts. -/
theorem compiler_deterministic (ctx : MCPContext) (fs : FS) (fuel : Nat) (c1 c2 : Str)
    (h : c1 = c2) :
    parsePromptToActions ctx fs fuel c1 = parsePromptToActions ctx fs fuel c2 ∧
    analyzeStepContext c1 = analyzeStepContext c2 := by
  subst h
  exact ⟨rfl, rfl⟩

/-- Closed instance of `compiler_deterministic`. -/
theorem compiler_deterministic_witness :
    parsePromptToActions cctx cfs 2 (L "verify dashboard") =
      parsePromptToActions cctx cfs 2 (L "verify dashboard") ∧
    analyzeStepContext (L "verify dashboard") = analyzeStepContext (L "verify dashboard") :=
  compiler_deterministic cctx cfs 2 (L "verify dashboard") (L "verify dashboard") rfl

/-- A step text matching no intent, no compound-clause condition and no
data-driven marker is classified `unknown`. -/
theorem analyze_unknown_of_no_match (t : Str)
    (h1 : matchesIntent t navKw = false) (h2 : matchesIntent t loginKw = false)
    (h3 : matchesIntent t fillKw = false) (h4 : matchesIntent t clickKw = false)
    (h5 : matchesIntent t verifyKw = false) (h6 : matchesIntent t waitKw = false)
    (h7 : isComplexWorkflow t = false) (h8 : isDataDrivenTest t = false) :
    analyzeStepContext t = { primaryAction := .unknown } := by
  unfold analyzeStepContext
  simp only [h1, h2, h3, h4, h5, h6, h7, h8, Bool.false_eq_true, if_false]

/-- C6 amended: a step with no recognizable verb (no intent keyword, not
compound, no dataset marker) is classified `unknown` and compiles to
**exactly one click on `interactive element`** carrying the step text —
not to a `Wait(1000)`.  The single `Wait(1000)` fallback (described
`Default wait action`, not `unclassified step`) is emitted only when the
intelligent parser yields zero actions (e.g. a fill-intent step with no
extractable quoted field) and the step mentions neither `navigate` nor
`login`. -/
theorem unclassified_step_behavior :
    (∀ (ctx : MCPContext) (fs : FS) (fuel n : Nat) (step : Str),
      matchesIntent (trim (toLower step)) navKw = false →
      matchesIntent (trim (toLower step)) loginKw = false →
      matchesIntent (trim (toLower step)) fillKw = false →
      matchesIntent (trim (toLower step)) clickKw = false →
      matchesIntent (trim (toLower step)) verifyKw = false →
      matchesIntent (trim (toLower step)) waitKw = false →
      isComplexWorkflow (trim (toLower step)) = false →
      isDataDrivenTest (trim (toLower step)) = false →
      parseSimpleStep ctx fs (fuel + 1) n step =
        [{ type := .click, element := some (L "interactive element"),
           description := stepTag n ++ L ": " ++ step }]) ∧
    (∀ (ctx : MCPContext) (fs : FS) (fuel n : Nat) (step : Str),
      intelligentStepParser ctx fs fuel n step = some [] →
      containsSub (toLower step) (L "navigate") = false →
      containsSub (toLower step) (L "login") = false →
      parseSimpleStep ctx fs fuel n step =
        [{ type := .wait, timeout := some 1000,
           description := stepTag n ++ L ": Default wait action" }]) := by
  constructor
  · intro ctx fs fuel n step h1 h2 h3 h4 h5 h6 h7 h8
    have hp : intelligentStepParser ctx fs (fuel + 1) n step =
        some (generateSemanticActions n step) := by
      unfold intelligentStepParser
      simp only [analyze_unknown_of_no_match _ h1 h2 h3 h4 h5 h6 h7 h8]
    unfold parseSimpleStep
    rw [hp]
    rfl
  · intro ctx fs fuel n step hp h2 h3
    unfold parseSimpleStep
    rw [hp]
    unfold fallbackBasicParser
    dsimp only
    simp only [h2, h3, Bool.false_eq_true, if_false]

/-- Closed instance of `unclassified_step_behavior`. -/
theorem unclassified_step_behavior_witness :
    parseSimpleStep cctx cfs 1 1 (L "greet the team") =
      [{ type := .click, element := some (L "interactive element"),
         description := stepTag 1 ++ L ": " ++ L "greet the team" }] ∧
    parseSimpleStep cctx cfs 1 1 (L "enter data") =
      [{ type := .wait, timeout := some 1000,
         description := stepTag 1 ++ L ": Default wait action" }] :=
  ⟨unclassified_step_behavior.1 cctx cfs 0 1 (L "greet the team")
     (by decide) (by decide) (by decide) (by decide)
     (by decide) (by decide) (by decide) (by decide),
   unclassified_step_behavior.2 cctx cfs 1 1 (L "enter data")
     (by decide) (by decide) (by decide)⟩

/-- C5 amended: the per-row assert is chosen by case-insensitively
inspecting the expected field, but inline and external CSV rows use
**different tables**: inline — `dashboard` → dashboard assert, else
`invalid` **or** `error` → error assert, else none; external CSV —
`dashboard` → dashboard assert, else `invalid` **only** → error assert
(`error` alone emits nothing), else none. -/
theorem row_assert_selection :
    (∀ (ctx : MCPContext) (n : Nat) (step : Str) (total idx : Nat) (row : InlineRow),
      assertActions (inlineRowActions ctx n step total idx row) =
        (if containsSub (toLower row.expected) (L "dashboard") then
          [{ type := .assert, element := some (L "dashboard page"),
             condition := some (L "visible"),
             description := rowTag n idx ++ L ": Verify dashboard is displayed for valid credentials" }]
         else if containsSub (toLower row.expected) (L "invalid")
             || containsSub (toLower row.expected) (L "error") then
          [{ type := .assert, element := some (L "error message"),
             condition := some (L "contains:Invalid credentials"),
             description := rowTag n idx ++ L ": Verify error message for invalid credentials" }]
         else [])) ∧
    (∀ (ctx : MCPContext) (n total idx : Nat) (row : CSVRow),
      assertActions (csvRowActions ctx n total idx row) =
        (if containsSub (toLower (getField row (L "Expected") (L "expected"))) (L "dashboard") then
          [{ type := .assert, element := some (L "dashboard page"),
             condition := some (L "visible"),
             description := rowTag n idx ++ L ": Verify dashboard is displayed for valid credentials" }]
         else if containsSub (toLower (getField row (L "Expected") (L "expected"))) (L "invalid") then
          [{ type := .assert, element := some (L "error message"),
             condition := some (L "contains:Invalid credentials"),
             description := rowTag n idx ++ L ": Verify error message for invalid credentials" }]
         else [])) := by
  constructor
  · intro ctx n step total idx row
    unfold assertActions inlineRowActions
    split_ifs <;> simp_all [List.filterMap_append, List.filterMap_cons]
  · intro ctx n total idx row
    unfold assertActions csvRowActions
    split_ifs <;> simp_all [List.filterMap_append, List.filterMap_cons]

/-- The two fill target elements differ. -/
theorem pwd_ne_uname : L "password input field" ≠ L "username input field" := by decide

/-- The two fill target elements differ (other direction). -/
theorem uname_ne_pwd : L "username input field" ≠ L "password input field" := by decide

/-- The logout-block dropdown click does not target the login button. -/
theorem dropdown_ne_loginBtn : L "user dropdown menu" ≠ L "login button" := by decide

/-- The logout-block logout click does not target the login button. -/
theorem logoutBtn_ne_loginBtn : L "logout button" ≠ L "login button" := by decide

/-- One inline row block fills the username field exactly once, with the
row's username. -/
theorem fillValues_username_block (ctx : MCPContext) (n : Nat) (step : Str)
    (total idx : Nat) (row : InlineRow) :
    fillValues (L "username input field") (inlineRowActions ctx n step total idx row) =
      [some row.username] := by
  unfold fillValues inlineRowActions
  split_ifs <;>
    simp_all [List.filterMap_append, List.filterMap_cons, pwd_ne_uname]

/-- One inline row block fills the password field exactly once, with the
row's password. -/
theorem fillValues_password_block (ctx : MCPContext) (n : Nat) (step : Str)
    (total idx : Nat) (row : InlineRow) :
    fillValues (L "password input field") (inlineRowActions ctx n step total idx row) =
      [some row.password] := by
  unfold fillValues inlineRowActions
  split_ifs <;>
    simp_all [List.filterMap_append, List.filterMap_cons, uname_ne_pwd]

/-- One inline row block clicks the login button exactly once (the logout
block clicks other elements). -/
theorem clickCount_login_block (ctx : MCPContext) (n : Nat) (step : Str)
    (total idx : Nat) (row : InlineRow) :
    clickCount (L "login button") (inlineRowActions ctx n step total idx row) = 1 := by
  unfold clickCount inlineRowActions
  split_ifs <;>
    simp_all [List.filterMap_append, List.filterMap_cons,
      dropdown_ne_loginBtn, logoutBtn_ne_loginBtn]

/-- Over the whole inline row loop, the username fill values are exactly
the rows' usernames, in order. -/
theorem fillValues_username_loop (ctx : MCPContext) (n : Nat) (step : Str) (total : Nat) :
    ∀ (rows : List InlineRow) (idx : Nat),
      fillValues (L "username input field") (inlineRowsLoop ctx n step total idx rows) =
        rows.map (fun r => some r.username)
  | [], _ => rfl
  | r :: rest, idx => by
    show fillValues _ (inlineRowActions ctx n step total idx r
        ++ inlineRowsLoop ctx n step total (idx + 1) rest) = _
    unfold fillValues
    rw [List.filterMap_append]
    show fillValues _ _ ++ fillValues _ _ = _
    rw [fillValues_username_block, fillValues_username_loop ctx n step total rest (idx + 1)]
    rfl

/-- Over the whole inline row loop, the password fill values are exactly
the rows' passwords, in order. -/
theorem fillValues_password_loop (ctx : MCPContext) (n : Nat) (step : Str) (total : Nat) :
    ∀ (rows : List InlineRow) (idx : Nat),
      fillValues (L "password input field") (inlineRowsLoop ctx n step total idx rows) =
        rows.map (fun r => some r.password)
  | [], _ => rfl
  | r :: rest, idx => by
    show fillValues _ (inlineRowActions ctx n step total idx r
        ++ inlineRowsLoop ctx n step total (idx + 1) rest) = _
    unfold fillValues
    rw [List.filterMap_append]
    show fillValues _ _ ++ fillValues _ _ = _
    rw [fillValues_password_block, fillValues_password_loop ctx n step total rest (idx + 1)]
    rfl

/-- Over the whole inline row loop, the login button is clicked exactly
once per row. -/
theorem clickCount_login_loop (ctx : MCPContext) (n : Nat) (step : Str) (total : Nat) :
    ∀ (rows : List InlineRow) (idx : Nat),
      clickCount (L "login button") (inlineRowsLoop ctx n step total idx rows) = rows.length
  | [], _ => rfl
  | r :: rest, idx => by
    show clickCount _ (inlineRowActions ctx n step total idx r
        ++ inlineRowsLoop ctx n step total (idx + 1) rest) = _
    unfold clickCount
    rw [List.filterMap_append, List.length_append]
    show clickCount _ _ + clickCount _ _ = _
    rw [clickCount_login_block, clickCount_login_loop ctx n step total rest (idx + 1)]
    simp [Nat.add_comm]

/-- C7: for text whose lines contain at least one (hence, exactly the N
matched) well-formed single-line `Username/Password/Expected` triple, the
inline Expander extracts exactly those rows in order of appearance, and
the emitted sequence fills the username field once per row with the
rows' usernames in order, fills the password field once per row with the
rows' passwords in order, and clicks the login button exactly once per
row — each row block individually containing exactly one of each. -/
theorem inline_expander_row_structure (ctx : MCPContext) (n : Nat) (text : Str)
    (h : singleLineRows text ≠ []) :
    extractInlineDatasets text = singleLineRows text ∧
    fillValues (L "username input field") (generateInlineDataActions ctx n text) =
      (singleLineRows text).map (fun r => some r.username) ∧
    fillValues (L "password input field") (generateInlineDataActions ctx n text) =
      (singleLineRows text).map (fun r => some r.password) ∧
    clickCount (L "login button") (generateInlineDataActions ctx n text) =
      (singleLineRows text).length ∧
    (∀ (step : Str) (total idx : Nat) (row : InlineRow),
      fillValues (L "username input field") (inlineRowActions ctx n step total idx row) =
        [some row.username] ∧
      fillValues (L "password input field") (inlineRowActions ctx n step total idx row) =
        [some row.password] ∧
      clickCount (L "login button") (inlineRowActions ctx n step total idx row) = 1) := by
  have he : extractInlineDatasets text = singleLineRows text := by
    unfold extractInlineDatasets
    dsimp only
    rw [if_neg]
    · rfl
    · intro hh
      exact h (List.isEmpty_iff.mp hh)
  have hg : generateInlineDataActions ctx n text =
      inlineRowsLoop ctx n text (singleLineRows text).length 0 (singleLineRows text) := by
    unfold generateInlineDataActions
    dsimp only
    rw [he]
  refine ⟨he, ?_, ?_, ?_, ?_⟩
  · rw [hg]
    exact fillValues_username_loop ctx n text (singleLineRows text).length
      (singleLineRows text) 0
  · rw [hg]
    exact fillValues_password_loop ctx n text (singleLineRows text).length
      (singleLineRows text) 0
  · rw [hg]
    exact clickCount_login_loop ctx n text (singleLineRows text).length
      (singleLineRows text) 0
  · intro step total idx row
    exact ⟨fillValues_username_block ctx n step total idx row,
      fillValues_password_block ctx n step total idx row,
      clickCount_login_block ctx n step total idx row⟩

/-- Closed instance of `inline_expander_row_structure` on a two-triple
prompt. -/
theorem inline_expander_row_structure_witness :
    extractInlineDatasets tripleText = singleLineRows tripleText ∧
    fillValues (L "username input field") (generateInlineDataActions cctx 1 tripleText) =
      (singleLineRows tripleText).map (fun r => some r.username) ∧
    fillValues (L "password input field") (generateInlineDataActions cctx 1 tripleText) =
      (singleLineRows tripleText).map (fun r => some r.password) ∧
    clickCount (L "login button") (generateInlineDataActions cctx 1 tripleText) =
      (singleLineRows tripleText).length ∧
    clickCount (L "login button")
      (inlineRowActions cctx 1 tripleText 2 0
        { username := L "Admin", password := L "admin123", expected := L "Dashboard visible" }) = 1 := by
  have hmain := inline_expander_row_structure cctx 1 tripleText (by decide)
  exact ⟨hmain.1, hmain.2.1, hmain.2.2.1, hmain.2.2.2.1,
    (hmain.2.2.2.2 tripleText 2 0
      { username := L "Admin", password := L "admin123", expected := L "Dashboard visible" }).2.2⟩

/-- A line without an `expected` label can update the accumulator but
never emits a row. -/
theorem scanLine_no_expected (cur : AccRec) (line : Str)
    (h : hasLabel (L "expected") line = false) :
    (scanLine cur line).2 = [] := by
  unfold scanLine
  simp only [h, Bool.false_eq_true, if_false]

/-- With the section flag still unset, a run of non-marker lines emits
nothing (the accumulator is never touched). -/
theorem structuredScan_nil_of_no_marker :
    ∀ (lines : List Str) (cur : AccRec),
      (∀ l ∈ lines, isMarkerLine l = false) →
      structuredScanAux false cur lines = []
  | [], _, _ => rfl
  | line :: rest, cur, h => by
    unfold structuredScanAux
    rw [h line (List.mem_cons_self line rest), if_neg (by simp)]
    exact structuredScan_nil_of_no_marker rest cur
      (fun l hl => h l (List.mem_cons_of_mem line hl))

/-- Rows are emitted only by the expected branch: if no line carries an
`expected` label, the scan emits nothing from any state. -/
theorem structuredScan_nil_of_no_expected :
    ∀ (lines : List Str) (b : Bool) (cur : AccRec),
      (∀ l ∈ lines, hasLabel (L "expected") l = false) →
      structuredScanAux b cur lines = []
  | [], _, _, _ => rfl
  | line :: rest, b, cur, h => by
    unfold structuredScanAux
    by_cases hm : isMarkerLine line = true
    · rw [if_pos hm]
      exact structuredScan_nil_of_no_expected rest true cur
        (fun l hl => h l (List.mem_cons_of_mem line hl))
    · rw [if_neg hm]
      cases b with
      | false =>
        rw [if_neg (by simp)]
        exact structuredScan_nil_of_no_expected rest false cur
          (fun l hl => h l (List.mem_cons_of_mem line hl))
      | true =>
        rw [if_pos rfl]
        dsimp only
        rw [scanLine_no_expected cur line (h line (List.mem_cons_self line rest))]
        rw [List.nil_append]
        exact structuredScan_nil_of_no_expected rest true (scanLine cur line).1
          (fun l hl => h l (List.mem_cons_of_mem line hl))

/-- C10: the structured (block-scan) inline extractor runs only when zero
single-line triples match; labelled lines accumulate only after a
`dataset`/`test data` marker line (no marker → zero rows); a row is
emitted only by an `expected`-label line (and then only when the
accumulator already holds truthy username and password); a trailing
incomplete accumulator is silently discarded.  The closed instances show
the three concrete behaviours on a marker + username + password block
with, respectively, a completing `expected` line, none, and no marker. -/
theorem structured_block_scan_behavior :
    (∀ text : Str, singleLineRows text ≠ [] →
      extractInlineDatasets text = singleLineRows text) ∧
    (∀ text : Str, singleLineRows text = [] →
      extractInlineDatasets text = structuredScanAux false {} (splitLines text)) ∧
    (∀ (lines : List Str) (cur : AccRec), (∀ l ∈ lines, isMarkerLine l = false) →
      structuredScanAux false cur lines = []) ∧
    (∀ (lines : List Str) (b : Bool) (cur : AccRec),
      (∀ l ∈ lines, hasLabel (L "expected") l = false) →
      structuredScanAux b cur lines = []) ∧
    extractInlineDatasets structuredText =
      [{ username := L "a", password := L "b", expected := L "ok" }] ∧
    extractInlineDatasets structuredIncompleteText = [] ∧
    extractInlineDatasets structuredNoMarkerText = [] := by
  refine ⟨?_, ?_, structuredScan_nil_of_no_marker, structuredScan_nil_of_no_expected,
    by decide, by decide, by decide⟩
  · intro text h
    unfold extractInlineDatasets
    dsimp only
    rw [if_neg]
    · rfl
    · intro hh
      exact h (List.isEmpty_iff.mp hh)
  · intro text h
    unfold extractInlineDatasets
    dsimp only
    rw [if_pos]
    show (singleLineRows text).isEmpty = true
    rw [h]
    rfl

/-- Closed instance of `structured_block_scan_behavior`. -/
theorem structured_block_scan_behavior_witness :
    extractInlineDatasets tripleText = singleLineRows tripleText ∧
    extractInlineDatasets structuredText =
      structuredScanAux false {} (splitLines structuredText) ∧
    structuredScanAux false {} [L "username: x"] = [] ∧
    structuredScanAux true {} [L "dataset marker", L "username: x", L "password: y"] = [] := by
  have hmain := structured_block_scan_behavior
  exact ⟨hmain.1 tripleText (by decide),
    hmain.2.1 structuredText (by decide),
    hmain.2.2.1 [L "username: x"] {} (by decide),
    hmain.2.2.2.1 [L "dataset marker", L "username: x", L "password: y"] true {} (by decide)⟩

end MCP
